import Mathlib

/-!
Verification of the process-local reference-counted buffer registry in
gralloc4/src/core/mali_gralloc_reference.cpp (class BufferManager).

The registry state is a table from handle identity (the handle's address,
modelled as a `Nat`) to a per-handle `MappedData` record, together with the
heap of handle objects themselves (the registry mutates the handle's scratch
`bases` slots and `attr_base`).  External collaborators — the OS length probe
behind `get_buffer_size`, and the memory mapper `mali_gralloc_ion_map` /
`mali_gralloc_ion_unmap` — are oracles passed in as parameters, with their
interface contracts taken from the spec.
-/

/-- Modelled from the spec: `MAX_BUFFER_FDS`, the number of client-facing
region slots per handle (its defining header is not part of the core source).
Fixed to 3 for executability; no claim depends on the exact value. -/
def MAX_BUFFER_FDS : Nat := 3

/-- Modelled from the spec: `MAX_FDS`, the total descriptor slots of a handle
including the reserved metadata descriptor and the sentinel tail. -/
def MAX_FDS : Nat := MAX_BUFFER_FDS + 1

/-- Modelled from the spec: the target system page size, used as the sanity
tolerance in `dmabuf_sanity_check`. -/
def PAGE_SIZE : Int := 4096

/-- Numeric value of `EINVAL`; the source reports `INVALID_HANDLE` as `-EINVAL`. -/
def EINVAL : Int := 22

/-- Modelled from the spec: the handle contract of `private_handle_t`.
`wellFormed` is the result of `private_handle_t::validate` (magic/version
check); `fds` are the descriptor slots (sentinel `-1` meaning unused);
`share_attr_fd` is the distinguished metadata descriptor returned by
`get_share_attr_fd()`; `bases` and `attr_base` are the mutable per-process
scratch slots (0 meaning null).  Fields the core never reads are omitted. -/
structure Handle where
  wellFormed : Bool
  fds : Nat → Int
  fd_count : Nat
  alloc_sizes : Nat → Nat
  attr_size : Nat
  share_attr_fd : Int
  bases : Nat → Nat
  attr_base : Nat

/-- Per-handle bookkeeping record (struct MappedData): cached base addresses
(0 meaning nullptr), cached region sizes, and the 64-bit reference count. -/
structure MappedData where
  bases : Nat → Nat
  alloc_sizes : Nat → Nat
  ref_count : Nat

/-- The registry state: `buffer_map` keyed by handle identity, plus the heap
of handle objects (whose scratch slots the registry writes). -/
structure State where
  table : Nat → Option MappedData
  handles : Nat → Handle

/-- Two's-complement reinterpretation of an unsigned 64-bit value as a signed
64-bit `off_t`, as performed by the cast `(off_t)allocated_size` in
`check_pid`. -/
def toOff (n : Nat) : Int :=
  if n % 2 ^ 64 < 2 ^ 63 then (n % 2 ^ 64 : Int) else (n % 2 ^ 64 : Int) - 2 ^ 64

/-- Length probe `get_buffer_size`: the oracle `fdSize` gives the OS-reported
byte length of a descriptor (`-1` when the query fails).  The seek
save/restore of the source has no observable effect in this model. -/
def get_buffer_size (fdSize : Int → Int) (fd : Int) : Int := fdSize fd

/-- Lambda `check_pid` inside `dmabuf_sanity_check`: a descriptor passes when
its OS length is unknown (`-1`) or within `PAGE_SIZE` above the advertised
allocated size (compared after the `off_t` cast of the advertised size). -/
def check_pid (fdSize : Int → Int) (fd : Int) (allocated_size : Nat) : Bool :=
  let size := get_buffer_size fdSize fd
  let size_padding := size - toOff allocated_size
  if size ≠ -1 ∧ (size_padding < 0 ∨ size_padding > PAGE_SIZE) then false else true

/-- Index of the first sentinel `-1` in the `fds` array, or `MAX_FDS` when
there is none: `std::find(hnd->fds, hnd->fds + MAX_FDS, -1) - hnd->fds`. -/
def valid_fd_count (h : Handle) : Nat :=
  (List.range MAX_FDS).findIdx fun i => h.fds i == -1

/-- The SanityChecker `dmabuf_sanity_check`: the descriptor-count check, the
per-region length checks, and the metadata length check, short-circuiting at
the first failure exactly as the source does. -/
def dmabuf_sanity_check (fdSize : Int → Int) (h : Handle) : Bool :=
  ((h.fd_count : Int) == (valid_fd_count h : Int) - 1) &&
  ((List.range h.fd_count).all fun i => check_pid fdSize (h.fds i) (h.alloc_sizes i)) &&
  check_pid fdSize h.share_attr_fd h.attr_size

/-- The Validator `validate_locked`: well-formedness, record lookup, then the
mapped-state consistency check (record vs handle `bases` and `alloc_sizes`
over all `MAX_BUFFER_FDS` slots) or the unmapped-state nullness check. -/
def validate_locked (s : State) (hid : Nat) : Int :=
  let hnd := s.handles hid
  if hnd.wellFormed = false then -EINVAL
  else
    match s.table hid with
    | none => -EINVAL
    | some data =>
      if data.bases 0 ≠ 0 then
        if (List.range MAX_BUFFER_FDS).all
            (fun i => data.bases i == hnd.bases i && data.alloc_sizes i == hnd.alloc_sizes i)
        then 0 else -EINVAL
      else
        if (List.range MAX_BUFFER_FDS).all
            (fun i => hnd.bases i == 0 && data.bases i == 0)
        then 0 else -EINVAL

/-- Zeroing of the handle's scratch `bases[0 .. MAX_BUFFER_FDS)` performed by
`retain` on first registration. -/
def zeroBases (hnd : Handle) : Handle :=
  { hnd with bases := fun i => if i < MAX_BUFFER_FDS then 0 else hnd.bases i }

/-- BufferManager::retain — register or re-register a handle.  On a
well-formedness failure returns `-EINVAL`; on a table miss inserts a fresh
`MappedData` (all fields zero) and zeroes the handle's scratch bases; in
either surviving branch increments the 64-bit `ref_count`. -/
def retain (s : State) (hid : Nat) : Int × State :=
  let hnd := s.handles hid
  if hnd.wellFormed = false then (-EINVAL, s)
  else
    match s.table hid with
    | none =>
      let data : MappedData := { bases := fun _ => 0, alloc_sizes := fun _ => 0, ref_count := 0 }
      let data' := { data with ref_count := (data.ref_count + 1) % 2 ^ 64 }
      (0, { table := fun k => if k = hid then some data' else s.table k,
            handles := fun k => if k = hid then zeroBases hnd else s.handles k })
    | some data =>
      let data' := { data with ref_count := (data.ref_count + 1) % 2 ^ 64 }
      (0, { s with table := fun k => if k = hid then some data' else s.table k })

/-- Result of a `map` call: returned status, the registry state after the
call, and instrumentation counting the calls made to the external mapper
(`mali_gralloc_ion_map`) and to `dmabuf_sanity_check`. -/
structure MapResult where
  status : Int
  state : State
  mapper_calls : Nat
  sanity_calls : Nat

/-- BufferManager::map_locked.  The external mapper oracle takes the handle
and returns a status together with the scratch `bases` values it would write
into the handle on success (spec MemMapper contract: `map` populates
`handle.bases[*]` and must not touch `attr_base`). -/
def map_locked (mapper : Handle → Int × (Nat → Nat)) (fdSize : Int → Int)
    (s : State) (hid : Nat) : MapResult :=
  let hnd := s.handles hid
  match s.table hid with
  | none => ⟨-EINVAL, s, 0, 0⟩
  | some data =>
    if data.bases 0 ≠ 0 then ⟨0, s, 0, 0⟩
    else if dmabuf_sanity_check fdSize hnd = false then ⟨-EINVAL, s, 0, 1⟩
    else
      let r := mapper hnd
      if r.1 ≠ 0 then ⟨r.1, s, 1, 1⟩
      else
        let hnd' := { hnd with bases := fun i => if i < MAX_BUFFER_FDS then r.2 i else hnd.bases i }
        let data' := { data with
          bases := fun i => if i < MAX_BUFFER_FDS then hnd'.bases i else data.bases i,
          alloc_sizes := fun i => if i < MAX_BUFFER_FDS then hnd'.alloc_sizes i else data.alloc_sizes i }
        ⟨0, { table := fun k => if k = hid then some data' else s.table k,
              handles := fun k => if k = hid then hnd' else s.handles k }, 1, 1⟩

/-- BufferManager::map — `validate_locked` under the same lock acquisition,
then `map_locked`. -/
def map (mapper : Handle → Int × (Nat → Nat)) (fdSize : Int → Int)
    (s : State) (hid : Nat) : MapResult :=
  let e := validate_locked s hid
  if e ≠ 0 then ⟨e, s, 0, 0⟩ else map_locked mapper fdSize s hid

/-- Result of a `release` call: returned status, the state after the call,
and instrumentation recording whether `mali_gralloc_ion_unmap` and the
metadata `munmap` were invoked. -/
structure RelResult where
  status : Int
  state : State
  ion_unmap_called : Bool
  meta_unmap_called : Bool

/-- Modelled from the spec: `mali_gralloc_ion_unmap` releases the mapped
ranges and clears the handle's scratch `bases[*]`. -/
def ion_unmap (hnd : Handle) : Handle :=
  { hnd with bases := fun i => if i < MAX_BUFFER_FDS then 0 else hnd.bases i }

/-- BufferManager::release — `validate_locked` under the same lock, record
lookup, the `ref_count == 0` bug guard, decrement, and on reaching zero the
teardown: region unmap when mapped, unconditional metadata unmap when
`attr_base` is set, and removal of the record from the table. -/
def release (s : State) (hid : Nat) : RelResult :=
  let e := validate_locked s hid
  if e ≠ 0 then ⟨e, s, false, false⟩
  else
    match s.table hid with
    | none => ⟨-EINVAL, s, false, false⟩
    | some data =>
      if data.ref_count == 0 then ⟨-EINVAL, s, false, false⟩
      else
        let rc := data.ref_count - 1
        if rc == 0 then
          let hnd := s.handles hid
          let hnd1 := if data.bases 0 ≠ 0 then ion_unmap hnd else hnd
          let hnd2 := if hnd1.attr_base ≠ 0 then { hnd1 with attr_base := 0 } else hnd1
          ⟨0, { table := fun k => if k = hid then none else s.table k,
                handles := fun k => if k = hid then hnd2 else s.handles k },
            decide (data.bases 0 ≠ 0), decide (hnd1.attr_base ≠ 0)⟩
        else
          ⟨0, { s with table := fun k =>
                  if k = hid then some { data with ref_count := rc } else s.table k },
            false, false⟩

/-- BufferManager::validate — run the Validator under the lock; the registry
state is returned unchanged (the function only reads). -/
def validate (s : State) (hid : Nat) : Int × State :=
  (validate_locked s hid, s)

/-- Spec form of the Validator acceptance condition (claim C5 amended to
range over all `MAX_BUFFER_FDS` slots in the mapped branch, as the source
loop does): the handle is well-formed, a record exists, and either the
mapped-state consistency or the unmapped-state nullness holds slot-wise. -/
def validatorSpecAmended (s : State) (hid : Nat) : Prop :=
  (s.handles hid).wellFormed = true ∧
  match s.table hid with
  | none => False
  | some data =>
    if data.bases 0 ≠ 0 then
      ∀ i < MAX_BUFFER_FDS,
        data.bases i = (s.handles hid).bases i ∧
        data.alloc_sizes i = (s.handles hid).alloc_sizes i
    else
      ∀ i < MAX_BUFFER_FDS, (s.handles hid).bases i = 0 ∧ data.bases i = 0

theorem validate_locked_cases (s : State) (hid : Nat) :
    validate_locked s hid = 0 ∨ validate_locked s hid = -EINVAL := by
  simp only [validate_locked]
  repeat' first
    | exact Or.inl rfl
    | exact Or.inr rfl
    | split

theorem validate_locked_eq_zero_iff (s : State) (hid : Nat) :
    validate_locked s hid = 0 ↔ validatorSpecAmended s hid := by
  cases hwf : (s.handles hid).wellFormed with
  | false => simp [validate_locked, validatorSpecAmended, hwf, EINVAL]
  | true =>
    cases hT : s.table hid with
    | none => simp [validate_locked, validatorSpecAmended, hwf, hT, EINVAL]
    | some d =>
      by_cases hm : d.bases 0 = 0
      · by_cases hall : ((List.range MAX_BUFFER_FDS).all
            fun i => (s.handles hid).bases i == 0 && d.bases i == 0) = true
        · have hall' := hall
          simp only [List.all_eq_true, List.mem_range, Bool.and_eq_true,
            beq_iff_eq] at hall'
          simp [validate_locked, validatorSpecAmended, hwf, hT, hm, hall]
          exact hall'
        · have hall' := hall
          simp only [List.all_eq_true, List.mem_range, Bool.and_eq_true,
            beq_iff_eq] at hall'
          simp [validate_locked, validatorSpecAmended, hwf, hT, hm, hall, hall',
            EINVAL]
      · by_cases hall : ((List.range MAX_BUFFER_FDS).all
            fun i => d.bases i == (s.handles hid).bases i &&
              d.alloc_sizes i == (s.handles hid).alloc_sizes i) = true
        · have hall' := hall
          simp only [List.all_eq_true, List.mem_range, Bool.and_eq_true,
            beq_iff_eq] at hall'
          simp [validate_locked, validatorSpecAmended, hwf, hT, hm, hall]
          exact hall'
        · have hall' := hall
          simp only [List.all_eq_true, List.mem_range, Bool.and_eq_true,
            beq_iff_eq] at hall'
          simp [validate_locked, validatorSpecAmended, hwf, hT, hm, hall, hall',
            EINVAL]

theorem retain_not_wf (s : State) (hid : Nat)
    (h : (s.handles hid).wellFormed = false) : retain s hid = (-EINVAL, s) := by
  unfold retain
  simp [h]

theorem retain_fresh_eq (s : State) (hid : Nat)
    (hwf : (s.handles hid).wellFormed = true) (hT : s.table hid = none) :
    retain s hid =
      (0, { table := fun k => if k = hid then some ⟨fun _ => 0, fun _ => 0, 1⟩ else s.table k,
            handles := fun k => if k = hid then zeroBases (s.handles hid) else s.handles k }) := by
  unfold retain
  simp [hwf, hT, Nat.mod_eq_of_lt]

theorem retain_existing_eq (s : State) (hid : Nat) (d : MappedData)
    (hwf : (s.handles hid).wellFormed = true) (hT : s.table hid = some d) :
    retain s hid =
      (0, { s with table := fun k =>
              if k = hid then some { d with ref_count := (d.ref_count + 1) % 2 ^ 64 }
              else s.table k }) := by
  unfold retain
  simp [hwf, hT]

theorem release_validate_fail (s : State) (hid : Nat)
    (h : validate_locked s hid ≠ 0) :
    release s hid = ⟨validate_locked s hid, s, false, false⟩ := by
  unfold release
  simp [h]

theorem release_rc_zero (s : State) (hid : Nat) (d : MappedData)
    (hv : validate_locked s hid = 0) (hT : s.table hid = some d)
    (h0 : d.ref_count = 0) : release s hid = ⟨-EINVAL, s, false, false⟩ := by
  unfold release
  simp [hv, hT, h0]

theorem release_teardown_facts (s : State) (hid : Nat) (d : MappedData)
    (hv : validate_locked s hid = 0) (hT : s.table hid = some d)
    (h1 : d.ref_count = 1) :
    (release s hid).status = 0 ∧
    (release s hid).state.table hid = none ∧
    (release s hid).ion_unmap_called = decide (d.bases 0 ≠ 0) ∧
    (release s hid).meta_unmap_called = decide ((s.handles hid).attr_base ≠ 0) ∧
    ((release s hid).state.handles hid).attr_base = 0 := by
  unfold release
  simp only [hv, hT, h1]
  norm_num
  constructor
  · by_cases hb : d.bases 0 = 0 <;> simp [hb, ion_unmap]
  · by_cases hb : d.bases 0 = 0 <;>
      by_cases ha : (s.handles hid).attr_base = 0 <;> simp [hb, ha, ion_unmap]

theorem release_dec_facts (s : State) (hid : Nat) (d : MappedData)
    (hv : validate_locked s hid = 0) (hT : s.table hid = some d)
    (hg : d.ref_count ≠ 0) (hne : d.ref_count ≠ 1) :
    release s hid =
      ⟨0, { s with table := fun k =>
              if k = hid then some { d with ref_count := d.ref_count - 1 }
              else s.table k },
        false, false⟩ := by
  unfold release
  have hrc : d.ref_count - 1 ≠ 0 := by omega
  simp [hv, hT, hg, hrc]

theorem map_validate_fail (mapper : Handle → Int × (Nat → Nat)) (fdSize : Int → Int)
    (s : State) (hid : Nat) (h : validate_locked s hid ≠ 0) :
    map mapper fdSize s hid = ⟨validate_locked s hid, s, 0, 0⟩ := by
  unfold map
  simp [h]

theorem map_already_mapped (mapper : Handle → Int × (Nat → Nat)) (fdSize : Int → Int)
    (s : State) (hid : Nat) (d : MappedData)
    (hv : validate_locked s hid = 0) (hT : s.table hid = some d)
    (hm : d.bases 0 ≠ 0) : map mapper fdSize s hid = ⟨0, s, 0, 0⟩ := by
  unfold map map_locked
  simp [hv, hT, hm]

theorem map_sanity_fail_eq (mapper : Handle → Int × (Nat → Nat)) (fdSize : Int → Int)
    (s : State) (hid : Nat) (d : MappedData)
    (hv : validate_locked s hid = 0) (hT : s.table hid = some d)
    (hm : d.bases 0 = 0)
    (hs : dmabuf_sanity_check fdSize (s.handles hid) = false) :
    map mapper fdSize s hid = ⟨-EINVAL, s, 0, 1⟩ := by
  unfold map map_locked
  simp [hv, hT, hm, hs]

/-- Handle after a successful external map: the mapper's addresses written
into the scratch slots `bases[0 .. MAX_BUFFER_FDS)`. -/
def mappedHandle (mapper : Handle → Int × (Nat → Nat)) (hnd : Handle) : Handle :=
  { hnd with bases := fun i => if i < MAX_BUFFER_FDS then (mapper hnd).2 i else hnd.bases i }

/-- Registry state after a successful fresh `map`: handle scratch written by
the mapper, record fields copied back from the handle. -/
def mapSuccState (mapper : Handle → Int × (Nat → Nat)) (s : State) (hid : Nat)
    (d : MappedData) : State :=
  let hnd' := mappedHandle mapper (s.handles hid)
  let d' : MappedData :=
    { d with bases := fun i => if i < MAX_BUFFER_FDS then hnd'.bases i else d.bases i,
             alloc_sizes := fun i => if i < MAX_BUFFER_FDS then hnd'.alloc_sizes i else d.alloc_sizes i }
  { table := fun k => if k = hid then some d' else s.table k,
    handles := fun k => if k = hid then hnd' else s.handles k }

theorem map_success_eq (mapper : Handle → Int × (Nat → Nat)) (fdSize : Int → Int)
    (s : State) (hid : Nat) (d : MappedData)
    (hv : validate_locked s hid = 0) (hT : s.table hid = some d)
    (hm : d.bases 0 = 0)
    (hs : dmabuf_sanity_check fdSize (s.handles hid) = true)
    (hr : (mapper (s.handles hid)).1 = 0) :
    map mapper fdSize s hid = ⟨0, mapSuccState mapper s hid d, 1, 1⟩ := by
  unfold map map_locked mapSuccState mappedHandle
  simp [hv, hT, hm, hs, hr]

theorem neg_EINVAL_ne_zero : (-EINVAL : Int) ≠ 0 := by
  simp [EINVAL]

/-- Concrete well-formed handle used by the witnesses: no client regions
(first sentinel at slot 1, `fd_count` 0), clean scratch slots. -/
def hW : Handle :=
  { wellFormed := true,
    fds := fun i => if i = 0 then 3 else -1,
    fd_count := 0,
    alloc_sizes := fun _ => 0,
    attr_size := 4096,
    share_attr_fd := 3,
    bases := fun _ => 0,
    attr_base := 0 }

/-- Initial registry state for the witnesses: empty table, every identity
bound to the clean handle `hW`. -/
def sEmpty : State := { table := fun _ => none, handles := fun _ => hW }

/-- C2: on a well-formed handle with no existing record, `retain` creates a
record with `ref_count = 1` (created at 0, incremented once), zeroes every
scratch slot `bases[0 .. MAX_BUFFER_FDS)`, and returns success; on an
ill-formed handle it returns `INVALID_HANDLE` and changes nothing. -/
theorem C2_retain_fresh (s : State) (hid : Nat) :
    ((s.handles hid).wellFormed = true → s.table hid = none →
      (retain s hid).1 = 0 ∧
      (retain s hid).2.table hid =
        some { bases := fun _ => 0, alloc_sizes := fun _ => 0, ref_count := 1 } ∧
      (∀ i < MAX_BUFFER_FDS, ((retain s hid).2.handles hid).bases i = 0)) ∧
    ((s.handles hid).wellFormed = false → retain s hid = (-EINVAL, s)) := by
  constructor
  · intro hwf hT
    rw [retain_fresh_eq s hid hwf hT]
    refine ⟨rfl, by simp, ?_⟩
    intro i hi
    simp [zeroBases, hi]
  · exact retain_not_wf s hid

theorem C2_retain_fresh_witness :
    (retain sEmpty 0).1 = 0 ∧ ((retain sEmpty 0).2.handles 0).bases 0 = 0 :=
  ⟨((C2_retain_fresh sEmpty 0).1 rfl rfl).1,
   ((C2_retain_fresh sEmpty 0).1 rfl rfl).2.2 0 (by decide)⟩

/-- C9: `validate` is a pure observer — the registry state it returns is the
input state unchanged, so every record's fields, the table membership, and
every handle's scratch slots are preserved regardless of the status. -/
theorem C9_validate_pure (s : State) (hid : Nat) :
    (validate s hid).2 = s ∧ (validate s hid).2.table = s.table ∧
    (validate s hid).2.handles = s.handles :=
  ⟨rfl, rfl, rfl⟩

/-- C7: `release` returns `INVALID_HANDLE` and mutates no state whenever the
handle is ill-formed, no record exists for it, or the record's `ref_count`
is already zero. -/
theorem C7_release_no_mutation (s : State) (hid : Nat)
    (h : (s.handles hid).wellFormed = false ∨ s.table hid = none ∨
      (∃ d, s.table hid = some d ∧ d.ref_count = 0)) :
    release s hid = ⟨-EINVAL, s, false, false⟩ := by
  rcases h with hwf | hT | ⟨d, hT, h0⟩
  · have hv : validate_locked s hid = -EINVAL := by
      simp [validate_locked, hwf]
    rw [release_validate_fail s hid (by rw [hv]; exact neg_EINVAL_ne_zero), hv]
  · have hv : validate_locked s hid = -EINVAL := by
      cases hwf2 : (s.handles hid).wellFormed <;>
        simp [validate_locked, hwf2, hT]
    rw [release_validate_fail s hid (by rw [hv]; exact neg_EINVAL_ne_zero), hv]
  · rcases validate_locked_cases s hid with hv | hv
    · exact release_rc_zero s hid d hv hT h0
    · rw [release_validate_fail s hid (by rw [hv]; exact neg_EINVAL_ne_zero), hv]

theorem C7_release_no_mutation_witness :
    release sEmpty 0 = ⟨-EINVAL, sEmpty, false, false⟩ :=
  C7_release_no_mutation sEmpty 0 (Or.inr (Or.inl rfl))

/-- Clean handle with a live metadata mapping, for the teardown witness. -/
def hMeta : Handle := { hW with attr_base := 7 }

/-- Registry state with one registered, unmapped record of count one whose
handle has a live metadata mapping. -/
def sOne : State :=
  { table := fun k => if k = 0 then some ⟨fun _ => 0, fun _ => 0, 1⟩ else none,
    handles := fun _ => hMeta }

/-- C6: a successful `release` that takes `ref_count` from one to zero
removes the record from the table, invokes the external region unmap exactly
when the record was in the mapped state, performs the metadata unmap exactly
when `attr_base` was non-null (independently of the mapped state), and
leaves `attr_base` cleared. -/
theorem C6_release_teardown (s : State) (hid : Nat) (d : MappedData)
    (hT : s.table hid = some d) (h1 : d.ref_count = 1)
    (hs : (release s hid).status = 0) :
    (release s hid).state.table hid = none ∧
    (release s hid).ion_unmap_called = decide (d.bases 0 ≠ 0) ∧
    (release s hid).meta_unmap_called = decide ((s.handles hid).attr_base ≠ 0) ∧
    ((release s hid).state.handles hid).attr_base = 0 := by
  rcases validate_locked_cases s hid with hv | hv
  · exact (release_teardown_facts s hid d hv hT h1).2
  · rw [release_validate_fail s hid (by rw [hv]; exact neg_EINVAL_ne_zero), hv] at hs
    exact absurd hs neg_EINVAL_ne_zero

theorem C6_release_teardown_witness :
    (release sOne 0).state.table 0 = none ∧
    (release sOne 0).ion_unmap_called = false ∧
    (release sOne 0).meta_unmap_called = true ∧
    ((release sOne 0).state.handles 0).attr_base = 0 :=
  C6_release_teardown sOne 0 ⟨fun _ => 0, fun _ => 0, 1⟩ rfl rfl (by decide)

/-- External mapper oracle for the witnesses: always succeeds and writes the
address 100 into every slot. -/
def mapper0 : Handle → Int × (Nat → Nat) := fun _ => (0, fun _ => 100)

/-- Length oracle for the witnesses: every length query fails (`-1`),
which the sanity check treats as unknown. -/
def fdSize0 : Int → Int := fun _ => -1

/-- C8: when the SanityChecker rejects a registered, unmapped handle, `map`
returns `INVALID_HANDLE`, the registry state is unchanged (the record stays
registered-unmapped with the same `ref_count`, record bases and handle
scratch slots), and the external mapper is never invoked. -/
theorem C8_map_sanity_reject (mapper : Handle → Int × (Nat → Nat))
    (fdSize : Int → Int) (s : State) (hid : Nat) (d : MappedData)
    (hT : s.table hid = some d) (hm : d.bases 0 = 0)
    (hs : dmabuf_sanity_check fdSize (s.handles hid) = false) :
    (map mapper fdSize s hid).status = -EINVAL ∧
    (map mapper fdSize s hid).state = s ∧
    (map mapper fdSize s hid).mapper_calls = 0 := by
  rcases validate_locked_cases s hid with hv | hv
  · rw [map_sanity_fail_eq mapper fdSize s hid d hv hT hm hs]
    exact ⟨rfl, rfl, rfl⟩
  · rw [map_validate_fail mapper fdSize s hid (by rw [hv]; exact neg_EINVAL_ne_zero), hv]
    exact ⟨rfl, rfl, rfl⟩

/-- Registered, unmapped state whose handle fails the sanity check (its
descriptor table is all sentinels, so the count check fails). -/
def sBadSan : State :=
  { table := fun k => if k = 0 then some ⟨fun _ => 0, fun _ => 0, 1⟩ else none,
    handles := fun _ => { hW with fds := fun _ => -1 } }

theorem C8_map_sanity_reject_witness :
    (map mapper0 fdSize0 sBadSan 0).status = -EINVAL ∧
    (map mapper0 fdSize0 sBadSan 0).state = sBadSan ∧
    (map mapper0 fdSize0 sBadSan 0).mapper_calls = 0 :=
  C8_map_sanity_reject mapper0 fdSize0 sBadSan 0 ⟨fun _ => 0, fun _ => 0, 1⟩
    rfl rfl (by decide)

/-- C10: the public `map` runs the full Validator before any map work — on a
registered but unmapped record whose handle scratch slot `i` was tampered to
a non-zero value, `map` returns `INVALID_HANDLE` without invoking the
SanityChecker or the external mapper and without changing any state. -/
theorem C10_map_tampered (mapper : Handle → Int × (Nat → Nat))
    (fdSize : Int → Int) (s : State) (hid : Nat) (d : MappedData) (i : Nat)
    (hT : s.table hid = some d) (hm : d.bases 0 = 0)
    (hi : i < MAX_BUFFER_FDS) (hb : (s.handles hid).bases i ≠ 0) :
    map mapper fdSize s hid = ⟨-EINVAL, s, 0, 0⟩ := by
  have hv : validate_locked s hid = -EINVAL := by
    rcases validate_locked_cases s hid with hv | hv
    · exfalso
      rcases (validate_locked_eq_zero_iff s hid).1 hv with ⟨hwf, hrest⟩
      rw [hT] at hrest
      simp only [hm] at hrest
      simp at hrest
      exact hb (hrest i hi).1
    · exact hv
  rw [map_validate_fail mapper fdSize s hid (by rw [hv]; exact neg_EINVAL_ne_zero), hv]

/-- Registered, unmapped state whose handle scratch slot 0 was tampered. -/
def sTamp : State :=
  { table := fun k => if k = 0 then some ⟨fun _ => 0, fun _ => 0, 1⟩ else none,
    handles := fun _ => { hW with bases := fun i => if i = 0 then 5 else 0 } }

theorem C10_map_tampered_witness :
    map mapper0 fdSize0 sTamp 0 = ⟨-EINVAL, sTamp, 0, 0⟩ :=
  C10_map_tampered mapper0 fdSize0 sTamp 0 ⟨fun _ => 0, fun _ => 0, 1⟩ 0
    rfl rfl (by decide) (by decide)

theorem mapSuccState_handles (mapper : Handle → Int × (Nat → Nat)) (s : State)
    (hid : Nat) (d : MappedData) :
    (mapSuccState mapper s hid d).handles hid = mappedHandle mapper (s.handles hid) := by
  simp [mapSuccState]

theorem mapSuccState_table (mapper : Handle → Int × (Nat → Nat)) (s : State)
    (hid : Nat) (d : MappedData) :
    (mapSuccState mapper s hid d).table hid =
      some { bases := fun i => if i < MAX_BUFFER_FDS
               then (mappedHandle mapper (s.handles hid)).bases i else d.bases i,
             alloc_sizes := fun i => if i < MAX_BUFFER_FDS
               then (mappedHandle mapper (s.handles hid)).alloc_sizes i else d.alloc_sizes i,
             ref_count := d.ref_count } := by
  simp [mapSuccState]

theorem mappedHandle_wellFormed (mapper : Handle → Int × (Nat → Nat)) (hnd : Handle) :
    (mappedHandle mapper hnd).wellFormed = hnd.wellFormed := rfl

theorem mappedHandle_bases_lt (mapper : Handle → Int × (Nat → Nat)) (hnd : Handle)
    (i : Nat) (hi : i < MAX_BUFFER_FDS) :
    (mappedHandle mapper hnd).bases i = (mapper hnd).2 i := by
  simp [mappedHandle, hi]

theorem mappedHandle_alloc_sizes (mapper : Handle → Int × (Nat → Nat)) (hnd : Handle)
    (i : Nat) : (mappedHandle mapper hnd).alloc_sizes i = hnd.alloc_sizes i := rfl

theorem map_mapper_fail_eq (mapper : Handle → Int × (Nat → Nat)) (fdSize : Int → Int)
    (s : State) (hid : Nat) (d : MappedData)
    (hv : validate_locked s hid = 0) (hT : s.table hid = some d)
    (hm : d.bases 0 = 0)
    (hs : dmabuf_sanity_check fdSize (s.handles hid) = true)
    (hr : (mapper (s.handles hid)).1 ≠ 0) :
    map mapper fdSize s hid = ⟨(mapper (s.handles hid)).1, s, 1, 1⟩ := by
  unfold map map_locked
  simp [hv, hT, hm, hs, hr]

/-- C4: `map` is idempotent — a successful `map` invokes the external mapper
at most once, and an immediately following `map` on the resulting state
returns success, leaves the state identical (hence identical `bases[*]`),
and invokes neither the mapper nor the sanity check again.  The hypothesis
on the mapper is the spec MemMapper contract that a successful map populates
`bases[0]` with a valid (non-null) address. -/
theorem C4_map_idempotent (mapper : Handle → Int × (Nat → Nat)) (fdSize : Int → Int)
    (s : State) (hid : Nat)
    (hwfm : ∀ hh, (mapper hh).1 = 0 → (mapper hh).2 0 ≠ 0)
    (hs : (map mapper fdSize s hid).status = 0) :
    (map mapper fdSize s hid).mapper_calls ≤ 1 ∧
    map mapper fdSize (map mapper fdSize s hid).state hid =
      ⟨0, (map mapper fdSize s hid).state, 0, 0⟩ := by
  rcases validate_locked_cases s hid with hv | hv
  case inr =>
    rw [map_validate_fail mapper fdSize s hid (by rw [hv]; exact neg_EINVAL_ne_zero), hv] at hs
    exact absurd hs neg_EINVAL_ne_zero
  rcases (validate_locked_eq_zero_iff s hid).1 hv with ⟨hwf, hrest⟩
  cases hT : s.table hid with
  | none => rw [hT] at hrest; exact absurd hrest (by simp)
  | some d =>
    by_cases hm : d.bases 0 = 0
    · by_cases hsan : dmabuf_sanity_check fdSize (s.handles hid) = true
      · by_cases hr : (mapper (s.handles hid)).1 = 0
        · rw [map_success_eq mapper fdSize s hid d hv hT hm hsan hr]
          refine ⟨Nat.le_refl 1, ?_⟩
          have hh' := mapSuccState_handles mapper s hid d
          have hT' := mapSuccState_table mapper s hid d
          have hb0 : (if (0 : Nat) < MAX_BUFFER_FDS
              then (mappedHandle mapper (s.handles hid)).bases 0 else d.bases 0) ≠ 0 := by
            rw [if_pos (by norm_num [MAX_BUFFER_FDS]),
              mappedHandle_bases_lt mapper (s.handles hid) 0 (by norm_num [MAX_BUFFER_FDS])]
            exact hwfm _ hr
          have hv' : validate_locked (mapSuccState mapper s hid d) hid = 0 := by
            rw [validate_locked_eq_zero_iff]
            refine ⟨by rw [hh', mappedHandle_wellFormed]; exact hwf, ?_⟩
            rw [hT']
            simp only
            rw [if_pos hb0]
            intro i hi
            rw [hh']
            simp [if_pos hi]
          exact map_already_mapped mapper fdSize (mapSuccState mapper s hid d) hid _ hv' hT' hb0
        · rw [map_mapper_fail_eq mapper fdSize s hid d hv hT hm hsan hr] at hs
          exact absurd hs hr
      · have hsan' : dmabuf_sanity_check fdSize (s.handles hid) = false :=
          Bool.eq_false_iff.2 hsan
        rw [map_sanity_fail_eq mapper fdSize s hid d hv hT hm hsan'] at hs
        exact absurd hs neg_EINVAL_ne_zero
    · rw [map_already_mapped mapper fdSize s hid d hv hT hm]
      exact ⟨Nat.zero_le 1, map_already_mapped mapper fdSize s hid d hv hT hm⟩

/-- Map witness fixtures: a consistently mapped registered record. -/
def dMapped : MappedData :=
  { bases := fun i => if i < MAX_BUFFER_FDS then 100 else 0,
    alloc_sizes := fun _ => 0, ref_count := 1 }

/-- Handle matching `dMapped` slot-for-slot. -/
def hMapped : Handle := { hW with bases := fun i => if i < MAX_BUFFER_FDS then 100 else 0 }

/-- Registered-mapped consistent registry state. -/
def sMapped : State :=
  { table := fun k => if k = 0 then some dMapped else none,
    handles := fun _ => hMapped }

theorem mapper0_wf (hh : Handle) : (mapper0 hh).1 = 0 → (mapper0 hh).2 0 ≠ 0 := by
  intro _
  simp [mapper0]

theorem C4_map_idempotent_witness :
    (map mapper0 fdSize0 sMapped 0).mapper_calls ≤ 1 ∧
    map mapper0 fdSize0 (map mapper0 fdSize0 sMapped 0).state 0 =
      ⟨0, (map mapper0 fdSize0 sMapped 0).state, 0, 0⟩ :=
  C4_map_idempotent mapper0 fdSize0 sMapped 0 mapper0_wf (by decide)

/-- Validator acceptance exactly as claim C5 words it: in the mapped branch
only the in-use regions `i < fd_count` are compared (the unmapped branch
checks every scratch and record slot, as the claim also says). -/
def validatorSpecClaimed (s : State) (hid : Nat) : Bool :=
  (s.handles hid).wellFormed &&
  match s.table hid with
  | none => false
  | some data =>
    if data.bases 0 ≠ 0 then
      (List.range (s.handles hid).fd_count).all fun i =>
        data.bases i == (s.handles hid).bases i &&
        data.alloc_sizes i == (s.handles hid).alloc_sizes i
    else
      (List.range MAX_BUFFER_FDS).all fun i =>
        (s.handles hid).bases i == 0 && data.bases i == 0

/-- State refuting claim C5 as stated: the handle advertises no in-use
regions (`fd_count = 0`) while the record is mapped, and the handle scratch
slot 0 disagrees with the record base. -/
def sC5 : State :=
  { table := fun k =>
      if k = 0 then some { bases := fun i => if i = 0 then 5 else 0,
                           alloc_sizes := fun _ => 0, ref_count := 1 }
      else none,
    handles := fun _ => { hW with bases := fun i => if i = 0 then 7 else 0 } }

/-- Counterexample to C5 as stated: the source Validator compares all
`MAX_BUFFER_FDS` slots in the mapped state and rejects this handle with
`INVALID_HANDLE`, while the claim's in-use-regions-only condition accepts
it (there are no in-use regions). -/
theorem C5_counterexample :
    validate_locked sC5 0 = -EINVAL ∧ validatorSpecClaimed sC5 0 = true := by
  constructor <;> decide

/-- C5 (amended): the Validator returns success iff the handle is
well-formed, a record exists, and — in the mapped state — the handle and the
record agree on `bases[i]` and `alloc_sizes[i]` for every slot
`i < MAX_BUFFER_FDS` (not only the in-use regions), or — in the unmapped
state — every such handle scratch slot is zero and every record base is
null; otherwise it returns `INVALID_HANDLE`. -/
theorem C5_validator_spec (s : State) (hid : Nat) :
    (validate_locked s hid = 0 ↔ validatorSpecAmended s hid) ∧
    (validate_locked s hid = 0 ∨ validate_locked s hid = -EINVAL) :=
  ⟨validate_locked_eq_zero_iff s hid, validate_locked_cases s hid⟩

/-- Length condition exactly as claim C3 words it: the OS length is the
unknown sentinel, or lies in the half-open range
`[alloc, alloc + PAGE_SIZE)` (reading "half-open" literally). -/
def lengthOkClaimed (fdSize : Int → Int) (fd : Int) (alloc : Nat) : Bool :=
  (fdSize fd == -1) ||
  (decide ((alloc : Int) ≤ fdSize fd) && decide (fdSize fd < (alloc : Int) + PAGE_SIZE))

/-- Count of non-sentinel descriptor entries, as claim C3 words it. -/
def countNonSentinel (h : Handle) : Nat :=
  ((List.range MAX_FDS).filter fun i => h.fds i != -1).length

/-- SanityChecker acceptance exactly as claim C3 words it. -/
def sanitySpecClaimed (fdSize : Int → Int) (h : Handle) : Bool :=
  (countNonSentinel h == h.fd_count + 1) &&
  ((List.range h.fd_count).all fun i => lengthOkClaimed fdSize (h.fds i) (h.alloc_sizes i)) &&
  lengthOkClaimed fdSize h.share_attr_fd h.attr_size

/-- Length condition the source actually enforces for off_t-representable
advertised sizes: unknown, or in the closed range `[alloc, alloc + PAGE_SIZE]`. -/
def lengthOkAmended (fdSize : Int → Int) (fd : Int) (alloc : Nat) : Prop :=
  fdSize fd = -1 ∨ ((alloc : Int) ≤ fdSize fd ∧ fdSize fd ≤ (alloc : Int) + PAGE_SIZE)

/-- SanityChecker acceptance as amended: the index of the first sentinel in
`fds` equals `fd_count + 1`, and each checked length is unknown or in the
closed one-page range. -/
def sanitySpecAmended (fdSize : Int → Int) (h : Handle) : Prop :=
  valid_fd_count h = h.fd_count + 1 ∧
  (∀ i < h.fd_count, lengthOkAmended fdSize (h.fds i) (h.alloc_sizes i)) ∧
  lengthOkAmended fdSize h.share_attr_fd h.attr_size

theorem check_pid_iff (fdSize : Int → Int) (fd : Int) (alloc : Nat)
    (hb : alloc < 2 ^ 63) :
    check_pid fdSize fd alloc = true ↔ lengthOkAmended fdSize fd alloc := by
  have h1 : alloc % 2 ^ 64 = alloc := Nat.mod_eq_of_lt (by omega)
  have h2 : ((alloc : Int)) % 2 ^ 64 = (alloc : Int) := by
    rw [Int.emod_eq_of_lt (by positivity) (by exact_mod_cast lt_trans hb (by norm_num))]
  simp only [check_pid, get_buffer_size, toOff, lengthOkAmended, h1, h2, hb, if_true]
  split_ifs with hc
  · simp only [Bool.false_eq_true, false_iff]
    simp only [PAGE_SIZE] at hc ⊢
    omega
  · simp only [true_iff]
    simp only [PAGE_SIZE, not_and, not_or, not_lt] at hc
    simp only [PAGE_SIZE]
    omega

theorem valid_fd_count_le (h : Handle) : valid_fd_count h ≤ MAX_FDS := by
  have h1 := @List.findIdx_le_length Nat (fun i => h.fds i == -1) (List.range MAX_FDS)
  simpa [valid_fd_count] using h1

/-- C3 (amended): for a length oracle as in the source and advertised sizes
representable as `off_t` (below `2 ^ 63`), the SanityChecker accepts a
handle iff the index of the first sentinel in `fds` equals `fd_count + 1`,
and for every client-facing descriptor `i < fd_count` the OS length of
`fds[i]` is the unknown sentinel or lies in the closed range
`[alloc_sizes[i], alloc_sizes[i] + PAGE_SIZE]`, and the same holds for the
metadata descriptor against `attr_size`. -/
theorem C3_sanity_spec (fdSize : Int → Int) (h : Handle)
    (hb : ∀ i, i < MAX_BUFFER_FDS → h.alloc_sizes i < 2 ^ 63)
    (ha : h.attr_size < 2 ^ 63) :
    dmabuf_sanity_check fdSize h = true ↔ sanitySpecAmended fdSize h := by
  by_cases hcnt : valid_fd_count h = h.fd_count + 1
  · have hfd3 : h.fd_count ≤ MAX_BUFFER_FDS := by
      have h1 := valid_fd_count_le h
      simp only [MAX_FDS] at h1
      omega
    have hc1 : ((h.fd_count : Int) == (valid_fd_count h : Int) - 1) = true := by
      rw [hcnt]
      simp only [beq_iff_eq]
      push_cast
      ring
    unfold dmabuf_sanity_check
    rw [hc1]
    simp only [Bool.true_and, Bool.and_eq_true, List.all_eq_true, List.mem_range]
    unfold sanitySpecAmended
    constructor
    · rintro ⟨hclient, hmeta⟩
      refine ⟨hcnt, ?_, (check_pid_iff fdSize h.share_attr_fd h.attr_size ha).1 hmeta⟩
      intro i hi
      exact (check_pid_iff fdSize (h.fds i) (h.alloc_sizes i)
        (hb i (lt_of_lt_of_le hi hfd3))).1 (hclient i hi)
    · rintro ⟨-, hclient, hmeta⟩
      refine ⟨?_, (check_pid_iff fdSize h.share_attr_fd h.attr_size ha).2 hmeta⟩
      intro i hi
      exact (check_pid_iff fdSize (h.fds i) (h.alloc_sizes i)
        (hb i (lt_of_lt_of_le hi hfd3))).2 (hclient i hi)
  · have hc1 : ((h.fd_count : Int) == (valid_fd_count h : Int) - 1) = false := by
      simp only [beq_eq_false_iff_ne, ne_eq]
      intro hx
      apply hcnt
      omega
    unfold dmabuf_sanity_check sanitySpecAmended
    rw [hc1]
    simp [hcnt]

theorem C3_sanity_spec_witness :
    dmabuf_sanity_check fdSize0 hW = true ↔ sanitySpecAmended fdSize0 hW :=
  C3_sanity_spec fdSize0 hW (fun i h => by simp [hW]) (by decide)

/-- Handle refuting claim C3 as stated: a non-sentinel descriptor after the
first sentinel (slot 3 behind the sentinel at slot 2), a client region whose
advertised size overflows off_t (`2 ^ 64 - 1`), and a metadata descriptor
whose OS length sits exactly at the closed-interval endpoint
`attr_size + PAGE_SIZE`. -/
def hC3 : Handle :=
  { wellFormed := true,
    fds := fun i => if i = 0 then 10 else if i = 1 then 11 else if i = 3 then 12 else -1,
    fd_count := 1,
    alloc_sizes := fun i => if i = 0 then 2 ^ 64 - 1 else 0,
    attr_size := 4096,
    share_attr_fd := 9,
    bases := fun _ => 0,
    attr_base := 0 }

/-- Length oracle for the C3 counterexample: descriptor 9 (metadata) reports
8192 = 4096 + PAGE_SIZE, descriptor 10 reports 0, everything else unknown. -/
def fdSizeC3 : Int → Int := fun fd => if fd = 9 then 8192 else if fd = 10 then 0 else -1

/-- Counterexample to C3 as stated: the source SanityChecker accepts this
handle (first-sentinel count matches, the off_t cast of `2 ^ 64 - 1` makes
the size padding 1, the metadata length is at the inclusive endpoint), while
the claim's predicate — non-sentinel entry count, half-open range, and
mathematical advertised sizes — rejects it. -/
theorem C3_counterexample :
    dmabuf_sanity_check fdSizeC3 hC3 = true ∧ sanitySpecClaimed fdSizeC3 hC3 = false := by
  constructor <;> decide

/-- Interleaved sequences of successful `retain` and `release` calls on one
handle identity: `Steps hid s k j s'` witnesses a run from `s` to `s'`
containing `k` retains and `j` releases, every call returning success. -/
inductive Steps (hid : Nat) (s : State) : Nat → Nat → State → Prop where
  | nil : Steps hid s 0 0 s
  | ret {k j : Nat} {s' : State} :
      Steps hid s k j s' → (retain s' hid).1 = 0 →
      Steps hid s (k + 1) j (retain s' hid).2
  | rel {k j : Nat} {s' : State} :
      Steps hid s k j s' → (release s' hid).status = 0 →
      Steps hid s k (j + 1) (release s' hid).state

theorem release_no_record (s : State) (hid : Nat)
    (hv : validate_locked s hid = 0) (hT : s.table hid = none) :
    release s hid = ⟨-EINVAL, s, false, false⟩ := by
  unfold release
  simp [hv, hT]

/-- C1 (amended): after any interleaving of `k` successful retains and `j`
successful releases on a handle identity with no prior record, provided
`k < 2 ^ 64` so the 64-bit counter never wraps, we have `j ≤ k`, the
record's `ref_count` equals `k - j` whenever the record exists, and the
record exists in the table iff `k > j`. -/
theorem C1_refcount_balance (hid : Nat) (s : State) (k j : Nat) (s' : State)
    (hsteps : Steps hid s k j s') (hnone : s.table hid = none) :
    k < 2 ^ 64 →
    j ≤ k ∧ (∀ d, s'.table hid = some d → d.ref_count = k - j) ∧
      ((s'.table hid).isSome ↔ j < k) := by
  induction hsteps with
  | nil =>
    intro hk
    refine ⟨Nat.le_refl 0, ?_, ?_⟩
    · intro d hd
      rw [hnone] at hd
      cases hd
    · simp [hnone]
  | @ret k j s1 prev hsucc ih =>
    intro hk
    obtain ⟨hjk, hrc, hex⟩ := ih (by omega)
    cases hwf : (s1.handles hid).wellFormed with
    | false =>
      rw [retain_not_wf s1 hid hwf] at hsucc
      exact absurd hsucc neg_EINVAL_ne_zero
    | true =>
      cases hT : s1.table hid with
      | none =>
        rw [hT] at hex
        simp at hex
        have hA : (retain s1 hid).2.table hid =
            some ⟨fun _ => 0, fun _ => 0, 1⟩ := by
          rw [retain_fresh_eq s1 hid hwf hT]
          simp
        refine ⟨by omega, ?_, ?_⟩
        · intro d hd
          rw [hA] at hd
          injection hd with h2
          rw [← h2]
          show 1 = k + 1 - j
          omega
        · rw [hA]
          simp
          omega
      | some d1 =>
        rw [hT] at hex
        simp at hex
        have hrc1 : d1.ref_count = k - j := hrc d1 hT
        have hA : (retain s1 hid).2.table hid =
            some { d1 with ref_count := (d1.ref_count + 1) % 2 ^ 64 } := by
          rw [retain_existing_eq s1 hid d1 hwf hT]
          simp
        have harith : (d1.ref_count + 1) % 2 ^ 64 = k + 1 - j := by
          rw [hrc1, Nat.mod_eq_of_lt (by omega)]
          omega
        refine ⟨by omega, ?_, ?_⟩
        · intro d hd
          rw [hA] at hd
          injection hd with h2
          rw [← h2]
          show (d1.ref_count + 1) % 2 ^ 64 = k + 1 - j
          exact harith
        · rw [hA]
          simp
          omega
  | @rel k j s1 prev hsucc ih =>
    intro hk
    obtain ⟨hjk, hrc, hex⟩ := ih hk
    rcases validate_locked_cases s1 hid with hv | hv
    · cases hT : s1.table hid with
      | none =>
        rw [release_no_record s1 hid hv hT] at hsucc
        exact absurd hsucc neg_EINVAL_ne_zero
      | some d1 =>
        rw [hT] at hex
        simp at hex
        have hjlt : j < k := hex
        have hrc1 : d1.ref_count = k - j := hrc d1 hT
        have hg : d1.ref_count ≠ 0 := by omega
        by_cases h1 : d1.ref_count = 1
        · obtain ⟨hst, htab, hion, hmeta, hattr⟩ :=
            release_teardown_facts s1 hid d1 hv hT h1
          refine ⟨by omega, ?_, ?_⟩
          · intro d hd
            rw [htab] at hd
            cases hd
          · rw [htab]
            simp
            omega
        · have hrel := release_dec_facts s1 hid d1 hv hT hg h1
          have hA : (release s1 hid).state.table hid =
              some { d1 with ref_count := d1.ref_count - 1 } := by
            rw [hrel]
            simp
          refine ⟨by omega, ?_, ?_⟩
          · intro d hd
            rw [hA] at hd
            injection hd with h2
            rw [← h2]
            show d1.ref_count - 1 = k - (j + 1)
            omega
          · rw [hA]
            simp
            omega
    · rw [release_validate_fail s1 hid (by rw [hv]; exact neg_EINVAL_ne_zero)] at hsucc
      rw [hv] at hsucc
      exact absurd hsucc neg_EINVAL_ne_zero

theorem C1_refcount_balance_witness :
    ((((release (retain (retain sEmpty 0).2 0).2 0).state.table 0).isSome ↔ 1 < 2)) :=
  (C1_refcount_balance 0 sEmpty 2 1
    (release (retain (retain sEmpty 0).2 0).2 0).state
    (Steps.rel (Steps.ret (Steps.ret Steps.nil (by decide)) (by decide)) (by decide))
    rfl (by decide)).2.2

/-- Record after `n` retains of the counterexample trace: all-zero caches
and the 64-bit counter value `n % 2 ^ 64`. -/
def dN (n : Nat) : MappedData :=
  { bases := fun _ => 0, alloc_sizes := fun _ => 0, ref_count := n % 2 ^ 64 }

/-- State after `n ≥ 1` retains of identity 0 starting from `sEmpty`. -/
def sN (n : Nat) : State :=
  { table := fun k => if k = 0 then some (dN n) else none,
    handles := fun k => if k = 0 then zeroBases hW else hW }

theorem retain_sEmpty : (retain sEmpty 0).1 = 0 ∧ (retain sEmpty 0).2 = sN 1 := by
  rw [retain_fresh_eq sEmpty 0 rfl rfl]
  refine ⟨rfl, ?_⟩
  simp only [sN, dN, sEmpty]
  congr 1

theorem retain_sN (n : Nat) :
    (retain (sN n) 0).1 = 0 ∧ (retain (sN n) 0).2 = sN (n + 1) := by
  have hwf : ((sN n).handles 0).wellFormed = true := rfl
  have hT : (sN n).table 0 = some (dN n) := rfl
  rw [retain_existing_eq (sN n) 0 (dN n) hwf hT]
  refine ⟨rfl, ?_⟩
  have harith : ((dN n).ref_count + 1) % 2 ^ 64 = (n + 1) % 2 ^ 64 := by
    show (n % 2 ^ 64 + 1) % 2 ^ 64 = (n + 1) % 2 ^ 64
    conv_rhs => rw [Nat.add_mod]
    norm_num
  simp only [sN, dN]
  congr 1
  funext k
  by_cases hk : k = 0 <;> simp [hk, harith]

theorem steps_sN (n : Nat) (hn : 1 ≤ n) : Steps 0 sEmpty n 0 (sN n) := by
  induction n with
  | zero => omega
  | succ m ih =>
    cases Nat.lt_or_ge m 1 with
    | inl hm =>
      have hm0 : m = 0 := by omega
      subst hm0
      have h1 := Steps.ret (Steps.nil) retain_sEmpty.1
      rw [retain_sEmpty.2] at h1
      exact h1
    | inr hm =>
      have h1 := Steps.ret (ih hm) (retain_sN m).1
      rw [(retain_sN m).2] at h1
      exact h1

/-- Counterexample to C1 as stated: a concrete interleaving of
`k = 2 ^ 64` successful retains and `j = 0` successful releases after which
the record still exists but its 64-bit `ref_count` has wrapped to 0, not
`k - j = 2 ^ 64`. -/
theorem C1_counterexample :
    Steps 0 sEmpty (2 ^ 64) 0 (sN (2 ^ 64)) ∧
    (sN (2 ^ 64)).table 0 = some (dN (2 ^ 64)) ∧
    (dN (2 ^ 64)).ref_count = 0 ∧ 2 ^ 64 - 0 ≠ 0 := by
  refine ⟨steps_sN (2 ^ 64) (by norm_num), rfl, ?_, by norm_num⟩
  show (2 ^ 64) % 2 ^ 64 = 0
  exact Nat.mod_self _
